import Mathlib

/-!
Verification of the sequential test runner and its hierarchical result model.

The development shallowly embeds the runner (`src/lib/runner.js`) and the
result classes `TestResult` / `CompositeResult` (result module) in Lean:

* `Value` models the JavaScript values a test passes to its completion
  callback (`next(error, result)`): `null`, `undefined`, strings, numbers and
  result-like objects carrying a `failure` field.
* `TestResult` with `fail` / `succeed` / `callback` is a field-for-field
  translation of the `TestResult` class (console output is not modelled).
* `RNode` / `Composite` model the tree of results: `CompositeResult` with
  `add`, `start`, `finish` and its `results` mapping.
* `JSValue` / `JSEntries` model the test-case trees given to `runAll`;
  `clone` and `isEmptyE` translate the helper functions `clone` and
  `isEmpty` of the runner module.
* `runGo` is a deterministic interpreter of the scheduler
  (`Runner.runAll` / `runOne` / `getNext` / `deleteAndRunNext`) under the
  assumption that every test function invokes its continuation exactly once
  with a fixed `(error, result)` pair (carried by the `jfun` constructor);
  the asynchronous deferral in `deleteAndRunNext` does not affect the values
  computed, only stack depth, so the interpreter sequences calls directly.
  Wall-clock timestamps (`start` / `finish`) only touch the `startMs` /
  `elapsedMs` fields and are analysed separately.
* `runAllEntry` models the exported entry point `runAll(param, callback)`:
  clone, run the root `Runner('main', series)`, then the completion wrapper
  that relabels a failed root result and delivers it on the error channel.
  The outcome `none` means the continuation is never invoked.
-/

namespace Testing

/-- Values a test hands to its completion callback: the `error` and `result`
arguments of `next(error, result)` in the runner. `vres` stands for an object
carrying `success` / `failure` fields (such as another result). -/
inductive Value where
  | vnull
  | vundef
  | vstr (s : String)
  | vnum (n : Int)
  | vres (success : Bool) (failure : Bool)
deriving DecidableEq, Repr

/-- JavaScript truthiness of a `Value`: `null` and `undefined` are falsy,
the empty string and zero are falsy, every other modelled value is truthy. -/
def Value.truthy : Value → Bool
  | .vnull => false
  | .vundef => false
  | .vstr s => !s.isEmpty
  | .vnum n => n != 0
  | .vres _ _ => true

/-- Reading the `failure` property of a callback result (`result.failure` in
`TestResult.callback`): only result-like objects have one; on every other
value the property is `undefined`, hence falsy. -/
def Value.failureField : Value → Bool
  | .vres _ f => f
  | _ => false

/-- Translation of the `TestResult` class: `key`, `success`, `failure`,
`message` and `finished`, initialised as in the constructor. -/
structure TestResult where
  key : String
  success : Bool
  failure : Bool
  message : Value
  finished : Bool
deriving DecidableEq, Repr

/-- Constructor of `TestResult`: `success = failure = finished = false`,
`message = null`. -/
def TestResult.init (key : String) : TestResult :=
  { key := key, success := false, failure := false, message := .vnull, finished := false }

/-- Translation of `TestResult.fail(message)`: sets `failure = true`,
`success = false`, stores the message and marks the result finished.
The `console.log` line is not modelled. -/
def TestResult.fail (r : TestResult) (message : Value) : TestResult :=
  { r with failure := true, success := false, message := message, finished := true }

/-- Translation of `TestResult.succeed(message)`: a second call after
`finished = true` is routed to `fail`, replacing the message by
`'Duplicated call to callback'` when the prior state was a success;
otherwise it records the success and marks the result finished. -/
def TestResult.succeed (r : TestResult) (message : Value) : TestResult :=
  if r.finished then
    r.fail (if r.success then .vstr "Duplicated call to callback" else message)
  else
    { r with success := true, message := message, finished := true }

/-- Translation of `TestResult.callback(error, result)`: a truthy error is
recorded only if no failure was recorded yet (first failure wins); otherwise,
if no failure was recorded, a result carrying a truthy `failure` field is
recorded through `fail` and any other result through `succeed`. -/
def TestResult.callback (r : TestResult) (error result : Value) : TestResult :=
  if error.truthy then
    if !r.failure then r.fail error else r
  else if !r.failure then
    if result.truthy && result.failureField then r.fail result
    else r.succeed result
  else r

/-- Invocations a caller can perform on a `TestResult`: the completion
callback, or the `fail` / `succeed` primitives directly. -/
inductive TOp where
  | cb (error result : Value)
  | fl (message : Value)
  | sc (message : Value)
deriving DecidableEq, Repr

/-- Application of one invocation to a `TestResult`. -/
def TestResult.applyOp (r : TestResult) : TOp → TestResult
  | .cb error result => r.callback error result
  | .fl message => r.fail message
  | .sc message => r.succeed message

/-- State of a fresh `TestResult` after an arbitrary sequence of
callback/fail/succeed invocations. -/
def TestResult.applyAll (key : String) (ops : List TOp) : TestResult :=
  ops.foldl TestResult.applyOp (TestResult.init key)

/-- Inductive invariant of `TestResult`: the two flags are never both set,
and a recorded failure implies the result is finished. -/
def TestResult.inv (r : TestResult) : Bool :=
  (!(r.success && r.failure)) && (!r.failure || r.finished)

theorem TestResult.inv_fail (r : TestResult) (m : Value) : (r.fail m).inv = true := by
  simp [TestResult.inv, TestResult.fail]

theorem TestResult.inv_succeed (r : TestResult) (m : Value) (h : r.inv = true) :
    (r.succeed m).inv = true := by
  unfold TestResult.succeed
  by_cases hf : r.finished
  · simp [hf, TestResult.inv_fail]
  · simp only [hf, if_false]
    have hfail : r.failure = false := by
      cases hfl : r.failure
      · rfl
      · simp [TestResult.inv, hfl, hf] at h
    simp [TestResult.inv, hfail]

theorem TestResult.inv_callback (r : TestResult) (error result : Value) (h : r.inv = true) :
    (r.callback error result).inv = true := by
  unfold TestResult.callback
  by_cases he : error.truthy
  · by_cases hf : r.failure
    · simp [he, hf, h]
    · simp [he, hf, TestResult.inv_fail]
  · by_cases hf : r.failure
    · simp [he, hf, h]
    · by_cases hr : result.truthy && result.failureField
      · simp [he, hf, hr, TestResult.inv_fail]
      · simp [he, hf, hr, TestResult.inv_succeed r result h]

theorem TestResult.inv_applyOp (r : TestResult) (op : TOp) (h : r.inv = true) :
    (r.applyOp op).inv = true := by
  cases op with
  | cb error result => exact TestResult.inv_callback r error result h
  | fl message => exact TestResult.inv_fail r message
  | sc message => exact TestResult.inv_succeed r message h

theorem TestResult.inv_foldl (ops : List TOp) (r : TestResult) (h : r.inv = true) :
    (ops.foldl TestResult.applyOp r).inv = true := by
  induction ops generalizing r with
  | nil => exact h
  | cons op rest ih => exact ih (r.applyOp op) (TestResult.inv_applyOp r op h)

/-- Node of the result tree stored under `results`: either a single test's
`TestResult` or a nested `CompositeResult` (flattened into its fields). -/
inductive RNode where
  | case (r : TestResult)
  | group (key : String) (success : Bool) (failure : Bool)
      (children : List (String × RNode))
deriving Repr

/-- Reading `result.key` as `CompositeResult.add` does. -/
def RNode.key : RNode → String
  | .case r => r.key
  | .group k _ _ _ => k

/-- Reading `result.success` as `CompositeResult.add` does. -/
def RNode.success : RNode → Bool
  | .case r => r.success
  | .group _ s _ _ => s

/-- Reading `result.failure` as `CompositeResult.add` does. -/
def RNode.failure : RNode → Bool
  | .case r => r.failure
  | .group _ _ f _ => f

/-- Setting `this.results[result.key] = result` on the association list that
models the `results` object: overwrite an existing key, append a new one. -/
def setKey (l : List (String × RNode)) (key : String) (node : RNode) :
    List (String × RNode) :=
  if l.any (fun kv => kv.1 = key) then
    l.map (fun kv => if kv.1 = key then (key, node) else kv)
  else l ++ [(key, node)]

/-- Translation of the `CompositeResult` class: `key`, `success`, `failure`,
the (never updated) `failures` counter, the `results` mapping and the
timestamps `startMs` / `elapsedMs` (`elapsedMs` is absent until `finish`). -/
structure Composite where
  key : String
  success : Bool
  failure : Bool
  failures : Nat
  children : List (String × RNode)
  startMs : Nat
  elapsedMs : Option Nat
deriving Repr

/-- Constructor of `CompositeResult`: both flags false, no results,
`startMs = 0`. -/
def Composite.init (key : String) : Composite :=
  { key := key, success := false, failure := false, failures := 0,
    children := [], startMs := 0, elapsedMs := none }

/-- View of a `CompositeResult` as a node of the result tree. -/
def Composite.toNode (c : Composite) : RNode :=
  .group c.key c.success c.failure c.children

/-- Translation of `CompositeResult.add(result)`: store the child under its
key, set `success` when the child succeeded and no failure is recorded, and
on a failed child clear `success` and set `failure`. -/
def Composite.add (c : Composite) (node : RNode) : Composite :=
  let c1 := { c with children := setKey c.children node.key node }
  let c2 := if node.success && !c1.failure then { c1 with success := true } else c1
  if node.failure then { c2 with success := false, failure := true } else c2

/-- Translation of `CompositeResult.start()`: record the current time. -/
def Composite.start (c : Composite) (now : Nat) : Composite :=
  { c with startMs := now }

/-- Truthiness of the guard `!this.start` in `CompositeResult.finish()`.
In the source, `this.start` resolves to the class method `start`, a function
object, which is always defined and therefore always truthy; the field
holding the start time is `this.startMs`, which the guard does not read. -/
def startMethodIsTruthy : Bool := true

/-- Translation of `CompositeResult.finish()`: `throw new Error('Missing
start time')` when `!this.start` is truthy, else record
`elapsedMs = now - startMs`. -/
def Composite.finish (c : Composite) (now : Nat) : Except String Composite :=
  if !startMethodIsTruthy then .error "Missing start time"
  else .ok { c with elapsedMs := some (now - c.startMs) }

mutual

/-- JavaScript values a test-case tree is built from, as the runner
discriminates them: `undefined`, `null`, booleans, numbers, strings, test
functions (carrying the `(error, result)` pair of their single callback
invocation) and nested objects. -/
inductive JSValue where
  | jundefined
  | jnull
  | jbool (b : Bool)
  | jnum (n : Int)
  | jstr (s : String)
  | jfun (errv resv : Value)
  | jobj (entries : JSEntries)

/-- Key-ordered entries of a JavaScript object, as `for (const key in ...)`
enumerates them. -/
inductive JSEntries where
  | nil
  | cons (key : String) (v : JSValue) (rest : JSEntries)

end

/-- JavaScript truthiness of a `JSValue` (the `if (!value)` test in
`runOne` and the `if (object[key])` test in `isEmpty`). -/
def valueTruthy : JSValue → Bool
  | .jundefined => false
  | .jnull => false
  | .jbool b => b
  | .jnum n => n != 0
  | .jstr s => !s.isEmpty
  | .jfun _ _ => true
  | .jobj _ => true

/-- The `typeof series == 'object'` test of `clone`: true for objects and,
in JavaScript, also for `null`. -/
def typeofObject : JSValue → Bool
  | .jnull => true
  | .jobj _ => true
  | _ => false

mutual

/-- Translation of the `clone(series)` helper of the runner: a non-object
argument logs an error and returns `undefined` (a bare `return;`); `null`
passes the `typeof` guard and yields an empty object because `for..in` over
`null` performs no iterations; an object is rebuilt entry by entry. -/
def clone : JSValue → JSValue
  | .jobj entries => .jobj (cloneEntries entries)
  | .jnull => .jobj .nil
  | _ => .jundefined

/-- Body of the `for (const key in series)` loop of `clone`: functions and
strings are kept by reference, every other value is cloned recursively. -/
def cloneEntries : JSEntries → JSEntries
  | .nil => .nil
  | .cons key v rest =>
      .cons key
        (match v with
          | .jfun errv resv => .jfun errv resv
          | .jstr s => .jstr s
          | w => clone w)
        (cloneEntries rest)

end

/-- Translation of the `isEmpty(object)` helper: an object is empty when no
key holds a truthy value. -/
def isEmptyE : JSEntries → Bool
  | .nil => true
  | .cons _ v rest => if valueTruthy v then false else isEmptyE rest

/-- Outcome of `Runner.runAll` on one node, reflecting the only call shapes
of the continuation in the source: `callback(null, this.result)` on
completion, `callback('Empty test for ' + key)` on a structural error, and
`stalled` when the continuation is never invoked (the nested-group error
handler logs `'Could not run all functions'` and returns). -/
inductive ROut where
  | ok (result : Composite)
  | err (error : String)
  | stalled
deriving Repr

/-- Interpreter of `Runner.runOne` / `deleteAndRunNext` on the remaining
series, accumulating into the node's `CompositeResult` `comp`. Each test
function calls its continuation exactly once with the pair carried by
`jfun`; `getNext` folds that pair into a fresh `TestResult` via `callback`
and adds it to the composite. A truthy object spawns a child runner; when
the child reports an error the handler logs and returns, so the node stalls.
Invalid values (truthy non-object non-function) are logged and skipped. -/
def runGo (comp : Composite) (entries : JSEntries) : ROut :=
  if isEmptyE entries then .ok comp
  else
    match entries with
    | .nil => .ok comp
    | .cons key v rest =>
      if valueTruthy v = false then .err ("Empty test for " ++ key)
      else
        match v with
        | .jobj children =>
            match runGo (Composite.init key) children with
            | .ok childComp => runGo (comp.add childComp.toNode) rest
            | _ => .stalled
        | .jfun errv resv =>
            runGo (comp.add (RNode.case ((TestResult.init key).callback errv resv))) rest
        | _ => runGo comp rest

/-- The `for (const key in series)` view the runner takes of its series:
objects contribute their entries, every other value (including the
`undefined` that `clone` returns for a non-object root) enumerates nothing. -/
def entriesOf : JSValue → JSEntries
  | .jobj entries => entries
  | _ => .nil

/-- Value delivered on the error channel of the final continuation: either
the string of a structural error or a (relabelled) root result. -/
inductive EArg where
  | str (s : String)
  | res (c : Composite)
deriving Repr

/-- Completion wrapper of the exported `runAll` (runner lines 16-25): a root
result with `failure` set has its key relabelled to `'failure'` and is
delivered as the error argument with no result; otherwise the pair is passed
through unchanged. `stalled` means the continuation is never invoked. -/
def entryDeliver : ROut → Option (Option EArg × Option Composite)
  | .ok c =>
      if c.failure then some (some (.res { c with key := "failure" }), none)
      else some (none, some c)
  | .err e => some (some (.str e), none)
  | .stalled => none

/-- Translation of the exported `runAll(param, callback)`: clone the input,
run `Runner('main', series)` and deliver through the completion wrapper.
The result is the argument pair handed to the continuation, or `none` when
the continuation is never invoked. -/
def runAllEntry (param : JSValue) : Option (Option EArg × Option Composite) :=
  entryDeliver (runGo (Composite.init "main") (entriesOf (clone param)))

/-- Keys of an entry list, in iteration order. -/
def keysE : JSEntries → List String
  | .nil => []
  | .cons k _ rest => k :: keysE rest

/-- Property lookup on an entry list (first binding wins). -/
def lookupE : JSEntries → String → Option JSValue
  | .nil, _ => none
  | .cons k v rest, key => if k = key then some v else lookupE rest key

theorem Composite.add_failure (c : Composite) (n : RNode) :
    (c.add n).failure = (n.failure || c.failure) := by
  simp only [Composite.add]
  split <;> split <;> simp_all

theorem Composite.add_success (c : Composite) (n : RNode) :
    (c.add n).success = (!n.failure && (c.success || (n.success && !c.failure))) := by
  simp only [Composite.add]
  split <;> split <;> simp_all

theorem foldl_add_failure (l : List RNode) (c : Composite) :
    (l.foldl Composite.add c).failure = (c.failure || l.any RNode.failure) := by
  induction l generalizing c with
  | nil => simp
  | cons n rest ih =>
    simp only [List.foldl_cons, List.any_cons, ih, Composite.add_failure]
    cases n.failure <;> cases c.failure <;> simp

theorem foldl_add_success (l : List RNode) (c : Composite) :
    (l.foldl Composite.add c).success
      = (!(l.any RNode.failure) && (c.success || (!c.failure && l.any RNode.success))) := by
  induction l generalizing c with
  | nil => simp
  | cons n rest ih =>
    simp only [List.foldl_cons, List.any_cons, ih,
      Composite.add_success, Composite.add_failure]
    cases n.failure <;> cases n.success <;> cases c.failure <;> cases c.success <;>
      cases rest.any RNode.failure <;> cases rest.any RNode.success <;> simp

/-- C1: the spec promises that `runAll` invokes its continuation exactly once,
never zero times, even when a nested group reports a structural error. The
code violates this: in the tree `{g: {a: 5, b: test}}` the invalid slot
`a: 5` is turned into `undefined` by `clone`, the child runner for `g`
reports the structural error `Empty test for a`, the parent handler merely
logs `Could not run all functions` and returns, and the continuation of
`runAll` is never invoked (outcome `none`). -/
theorem runAll_nested_group_error_never_invokes_continuation :
    runAllEntry (.jobj (.cons "g" (.jobj (.cons "a" (.jnum 5)
      (.cons "b" (.jfun .vnull (.vstr "ok")) .nil))) .nil)) = none := rfl

/-- C2 (counterexample): a `TestResult` that completed successfully and whose
completion callback is invoked a second time with an error does not record
the duplicated-call message (it records the error itself), and `success` is
cleared rather than left true beside `failure` — refuting the claim that the
second call records the duplicated message and makes both flags true. -/
theorem duplicate_completion_counterexample :
    ((TestResult.init "t").succeed (.vstr "ok")).finished = true
    ∧ ((TestResult.init "t").succeed (.vstr "ok")).success = true
    ∧ ¬((((TestResult.init "t").succeed (.vstr "ok")).callback (.vstr "boom") .vnull).message
          = Value.vstr "Duplicated call to callback"
        ∧ (((TestResult.init "t").succeed (.vstr "ok")).callback
            (.vstr "boom") .vnull).success = true
        ∧ (((TestResult.init "t").succeed (.vstr "ok")).callback
            (.vstr "boom") .vnull).failure = true) := by
  decide

/-- C2 (amended): for every `TestResult` that already completed successfully
(`finished = true`, `success = true`, `failure = false`), a second invocation
of its completion callback with a falsy error and a result that does not
carry a failure marker records a failure whose message is
`Duplicated call to callback`; after that second call `failure` is true and
`success` is false (the failure clears `success`; the flags are never both
true). -/
theorem duplicate_completion_records_failure (r : TestResult) (error result : Value)
    (hfin : r.finished = true) (hs : r.success = true) (hf : r.failure = false)
    (herr : error.truthy = false)
    (hres : (result.truthy && result.failureField) = false) :
    (r.callback error result).failure = true
    ∧ (r.callback error result).success = false
    ∧ (r.callback error result).message = Value.vstr "Duplicated call to callback" := by
  unfold TestResult.callback
  simp only [herr, hf, Bool.false_eq_true, if_false, Bool.not_false, if_true, hres]
  simp [TestResult.succeed, hfin, hs, TestResult.fail]

/-- C2 (witness): the amended claim at a concrete input: a fresh result that
succeeded once and whose callback is invoked a second time with
`(null, null)`. -/
theorem duplicate_completion_records_failure_witness :
    (((TestResult.init "t").succeed (.vstr "ok")).callback .vnull .vnull).failure = true
    ∧ (((TestResult.init "t").succeed (.vstr "ok")).callback .vnull .vnull).success = false
    ∧ (((TestResult.init "t").succeed (.vstr "ok")).callback .vnull .vnull).message
        = Value.vstr "Duplicated call to callback" :=
  duplicate_completion_records_failure _ _ _ rfl rfl rfl rfl rfl

/-- C3: for every sequence of `add(child)` calls on a fresh `CompositeResult`,
`failure` is set exactly when some added child carries `failure` (and, by the
third equation, once set through some prefix it remains set after every
later `add`), and `success` is set exactly when some added child succeeded
and no added child carries `failure` — failure is sticky and dominant. -/
theorem composite_add_failure_dominance (k : String) (children more : List RNode) :
    ((children.foldl Composite.add (Composite.init k)).failure
        = children.any RNode.failure)
    ∧ ((children.foldl Composite.add (Composite.init k)).success
        = (children.any RNode.success && !(children.any RNode.failure)))
    ∧ (((children ++ more).foldl Composite.add (Composite.init k)).failure
        = (children.any RNode.failure || more.any RNode.failure)) := by
  refine ⟨?_, ?_, ?_⟩
  · simp [foldl_add_failure, Composite.init]
  · simp only [foldl_add_success, Composite.init]
    cases children.any RNode.failure <;> cases children.any RNode.success <;> simp
  · simp [List.foldl_append, foldl_add_failure, Composite.init]

/-- C4: for every run of the root runner that completes with a root result,
the completion wrapper of `runAll` relabels the key of a failed root result
to `failure` and delivers it as the first (error) argument with no second
argument; a root result without failure is delivered as the second argument
with a null first argument. -/
theorem runAll_failure_relabel_delivery (param : JSValue) (c : Composite)
    (h : runGo (Composite.init "main") (entriesOf (clone param)) = ROut.ok c) :
    (c.failure = true →
      runAllEntry param = some (some (.res { c with key := "failure" }), none))
    ∧ (c.failure = false → runAllEntry param = some (none, some c)) := by
  unfold runAllEntry
  rw [h]
  constructor
  · intro hf; simp [entryDeliver, hf]
  · intro hf; simp [entryDeliver, hf]

/-- C4 (witness): a run with a single failing test delivers the root result
relabelled `failure` through the error channel with no second argument. -/
theorem runAll_failure_relabel_delivery_witness :
    runAllEntry (.jobj (.cons "t" (.jfun (.vstr "boom") .vnull) .nil)) =
      some (some (.res ⟨"failure", false, true, 0,
        [("t", RNode.case ⟨"t", false, true, .vstr "boom", true⟩)], 0, none⟩), none) :=
  (runAll_failure_relabel_delivery (.jobj (.cons "t" (.jfun (.vstr "boom") .vnull) .nil))
    ⟨"main", false, true, 0,
      [("t", RNode.case ⟨"t", false, true, .vstr "boom", true⟩)], 0, none⟩ rfl).1 rfl

/-- C5 (counterexample): a node whose mapping holds a single falsy slot has a
falsy value at its first key, yet the scheduler does not complete it with the
hard error `Empty test for a`: `isEmpty` classifies the all-falsy mapping as
empty and the node completes with its current group result. -/
theorem first_falsy_all_falsy_counterexample :
    runGo (Composite.init "g") (.cons "a" .jundefined .nil) = ROut.ok (Composite.init "g")
    ∧ runGo (Composite.init "g") (.cons "a" .jundefined .nil)
        ≠ ROut.err ("Empty test for " ++ "a") := by
  refine ⟨rfl, fun h => ?_⟩
  exact ROut.noConfusion h

/-- C5 (amended): for every node whose remaining-case mapping has a falsy
value at its first key in iteration order and is not classified empty by
`isEmpty` (that is, some key holds a truthy value), the scheduler completes
the whole node with the hard error `Empty test for <key>` instead of
continuing to the remaining siblings. -/
theorem first_falsy_with_truthy_sibling_errors (comp : Composite) (key : String)
    (v : JSValue) (rest : JSEntries) (hv : valueTruthy v = false)
    (hne : isEmptyE (JSEntries.cons key v rest) = false) :
    runGo comp (JSEntries.cons key v rest) = ROut.err ("Empty test for " ++ key) := by
  rw [runGo.eq_def]
  simp [hne, hv]

/-- C5 (witness): the amended claim at the mapping `{a: undefined, b: test}`. -/
theorem first_falsy_with_truthy_sibling_errors_witness :
    runGo (Composite.init "g")
        (.cons "a" .jundefined (.cons "b" (.jfun .vnull .vnull) .nil))
      = ROut.err ("Empty test for " ++ "a") :=
  first_falsy_with_truthy_sibling_errors _ "a" _ _ rfl rfl

/-- C6: a group whose case mapping is empty completes with its freshly
constructed `CompositeResult`, which has `success = false` and
`failure = false` — the unknown state. -/
theorem empty_mapping_unknown_result (k : String) :
    runGo (Composite.init k) JSEntries.nil = ROut.ok (Composite.init k)
    ∧ (Composite.init k).success = false ∧ (Composite.init k).failure = false :=
  ⟨rfl, rfl, rfl⟩

/-- C7: the spec says `finish()` fails fast when called without a prior
`start()`; the code never raises, because its guard tests `!this.start` —
the always-defined `start` method, which is always truthy — instead of the
`startMs` field. For every composite, started or not, `finish` returns
normally and computes `elapsedMs = now - startMs`; in particular a fresh,
never-started group result (with `startMs = 0`) yields `elapsedMs = now`. -/
theorem finish_never_raises (c : Composite) (now : Nat) :
    Composite.finish c now = Except.ok { c with elapsedMs := some (now - c.startMs) }
    ∧ Composite.finish (Composite.init "g") 1000
        = Except.ok ⟨"g", false, false, 0, [], 0, some 1000⟩ :=
  ⟨rfl, rfl⟩

theorem entriesInduction {motive : JSEntries → Prop} (hnil : motive .nil)
    (hcons : ∀ (k : String) (v : JSValue) (rest : JSEntries),
      motive rest → motive (.cons k v rest)) :
    ∀ e, motive e
  | .nil => hnil
  | .cons k v rest => hcons k v rest (entriesInduction hnil hcons rest)

/-- Body of the `for (const key in series)` loop of `clone` on one value:
functions and strings are kept by reference, anything else is cloned. -/
def leafClone : JSValue → JSValue
  | .jfun errv resv => .jfun errv resv
  | .jstr s => .jstr s
  | w => clone w

theorem cloneEntries_cons (k : String) (v : JSValue) (rest : JSEntries) :
    cloneEntries (.cons k v rest) = .cons k (leafClone v) (cloneEntries rest) := by
  cases v <;> rfl

theorem lookupE_cloneEntries : ∀ (e : JSEntries) (key : String),
    lookupE (cloneEntries e) key = (lookupE e key).map leafClone := by
  intro e
  induction e using entriesInduction with
  | hnil => intro key; rfl
  | hcons k v rest ih =>
    intro key
    rw [cloneEntries_cons]
    simp only [lookupE]
    by_cases hk : k = key
    · simp [hk]
    · simp [hk, ih]

theorem cloneEntries_keys : ∀ entries : JSEntries,
    keysE (cloneEntries entries) = keysE entries := by
  intro entries
  induction entries using entriesInduction with
  | hnil => rfl
  | hcons k v rest ih =>
    rw [cloneEntries_cons]
    simp only [keysE, ih]

theorem cloneEntries_lookup_fun : ∀ (entries : JSEntries) (key : String)
    (errv resv : Value), lookupE entries key = some (.jfun errv resv) →
    lookupE (cloneEntries entries) key = some (.jfun errv resv) := by
  intro entries key errv resv h
  rw [lookupE_cloneEntries, h]
  rfl

theorem cloneEntries_lookup_str : ∀ (entries : JSEntries) (key s : String),
    lookupE entries key = some (.jstr s) →
    lookupE (cloneEntries entries) key = some (.jstr s) := by
  intro entries key s h
  rw [lookupE_cloneEntries, h]
  rfl

/-- C8 (counterexample): for the non-mapping input `5`, `clone` returns
`undefined` (a bare `return;`), not an empty mapping as claimed. -/
theorem clone_non_mapping_counterexample :
    clone (.jnum 5) = JSValue.jundefined
    ∧ clone (.jnum 5) ≠ JSValue.jobj JSEntries.nil := by
  refine ⟨rfl, fun h => ?_⟩
  exact JSValue.noConfusion h

/-- C8 (amended): for every non-mapping input `clone` logs an error and
returns `undefined` (no copy) without throwing — the runner then treats the
undefined series as an empty mapping; `null` (which passes the `typeof`
guard) yields an empty mapping; and for every mapping input `clone` returns
a rebuilt mapping with the same keys in order that keeps function and string
leaves by reference (here: unchanged) and replaces every other value by its
clone, so no mapping node is shared with the original and the original is
never mutated by a run. -/
theorem clone_behavior :
    (∀ v : JSValue, typeofObject v = false → clone v = JSValue.jundefined)
    ∧ clone JSValue.jnull = JSValue.jobj JSEntries.nil
    ∧ (∀ entries : JSEntries,
        clone (JSValue.jobj entries) = JSValue.jobj (cloneEntries entries))
    ∧ (∀ entries : JSEntries, keysE (cloneEntries entries) = keysE entries)
    ∧ (∀ (entries : JSEntries) (key : String) (errv resv : Value),
        lookupE entries key = some (.jfun errv resv) →
        lookupE (cloneEntries entries) key = some (.jfun errv resv))
    ∧ (∀ (entries : JSEntries) (key s : String),
        lookupE entries key = some (.jstr s) →
        lookupE (cloneEntries entries) key = some (.jstr s)) := by
  refine ⟨?_, rfl, fun _ => rfl, cloneEntries_keys,
    cloneEntries_lookup_fun, cloneEntries_lookup_str⟩
  intro v h
  cases v <;> first | rfl | simp [typeofObject] at h

/-- C8 (witness): the amended claim at concrete inputs: a boolean root gives
`undefined`, and in the mapping `{a: 1, f: test, s: "file.js"}` the function
and string leaves survive cloning unchanged. -/
theorem clone_behavior_witness :
    clone (.jbool true) = JSValue.jundefined
    ∧ lookupE (cloneEntries (.cons "a" (.jnum 1) (.cons "f" (.jfun .vnull .vnull)
        (.cons "s" (.jstr "file.js") .nil)))) "f" = some (.jfun .vnull .vnull)
    ∧ lookupE (cloneEntries (.cons "a" (.jnum 1) (.cons "f" (.jfun .vnull .vnull)
        (.cons "s" (.jstr "file.js") .nil)))) "s" = some (.jstr "file.js") :=
  ⟨clone_behavior.1 _ rfl,
   clone_behavior.2.2.2.2.1 _ "f" _ _ rfl,
   clone_behavior.2.2.2.2.2 _ "s" _ rfl⟩

/-- C9: for every sequence of callback, fail and succeed invocations on a
fresh `TestResult`, the flags `success` and `failure` are never both true:
every transition that sets `failure` also clears `success` in the same step,
so at most one flag is true at any observable point. -/
theorem test_result_flags_mutually_exclusive (key : String) (ops : List TOp) :
    ((TestResult.applyAll key ops).success && (TestResult.applyAll key ops).failure)
      = false := by
  have h := TestResult.inv_foldl ops (TestResult.init key) rfl
  unfold TestResult.applyAll
  unfold TestResult.inv at h
  cases hb : ((ops.foldl TestResult.applyOp (TestResult.init key)).success
      && (ops.foldl TestResult.applyOp (TestResult.init key)).failure)
  · rfl
  · rw [hb] at h; simp at h

/-- C10: a node whose remaining mapping holds only falsy values is classified
empty by `isEmpty`, so it completes immediately with its current group
result instead of reporting a structural error; and the structural error
`Empty test for <key>` is reachable only when the mapping also holds at
least one truthy value (`isEmpty` is false on it). -/
theorem all_falsy_mapping_completes_empty (comp : Composite) (entries : JSEntries) :
    (isEmptyE entries = true → runGo comp entries = ROut.ok comp)
    ∧ (∀ e : String, runGo comp entries = ROut.err e → isEmptyE entries = false) := by
  constructor
  · intro h
    rw [runGo.eq_def]
    simp [h]
  · intro e h
    cases hE : isEmptyE entries
    · rfl
    · exfalso
      rw [runGo.eq_def] at h
      simp [hE] at h

/-- C10 (witness): the mapping `{a: undefined}` completes with the current
group result, and in `{a: undefined, b: test}` the structural error implies
a truthy value is present. -/
theorem all_falsy_mapping_completes_empty_witness :
    runGo (Composite.init "g") (.cons "a" .jundefined .nil) = ROut.ok (Composite.init "g")
    ∧ isEmptyE (.cons "a" .jundefined (.cons "b" (.jfun .vnull .vnull) .nil)) = false :=
  ⟨(all_falsy_mapping_completes_empty _ _).1 rfl,
   (all_falsy_mapping_completes_empty (Composite.init "g") _).2 ("Empty test for " ++ "a") rfl⟩

end Testing
